import Mathlib

/-!
Verification of the USPA records scraper/uploader core
(`usparecordsscrape.py`, `uspaupload.py`).

Strings are modelled as `List Char` (`Str`), since the Python code operates on
text by code points; every Python string primitive used by the source
(`split`, `strip`, `replace`, `upper`, `endswith`, `in`, `", ".join`) is
embedded as a structurally recursive function on `Str`.  Floats produced by
Python's `float()` / `pd.to_numeric` on decimal literals are modelled as exact
rationals; `float()` on a non-decimal string is modelled as `none`
(a raised `ValueError`), and `pd.to_numeric(errors="coerce")` as `none` for
missing.
-/

set_option maxRecDepth 40000

/-- Strings as lists of code points. -/
abbrev Str : Type := List Char

/-- Conversion from Lean string literals into the model. -/
def str (s : String) : Str := s.toList

/-- `leadsWith pat s` : does `s` start with `pat`?  (Python `s.startswith(pat)`.) -/
def leadsWith : Str → Str → Bool
  | [], _ => true
  | _ :: _, [] => false
  | p :: ps, c :: cs => p == c && leadsWith ps cs

/-- Python `pat in s` (contiguous substring test). -/
def containsL : Str → Str → Bool
  | [], pat => leadsWith pat []
  | c :: t, pat => leadsWith pat (c :: t) || containsL t pat

/-- Python `s.split(sep)` for a one-character separator (the source only splits
on `"/"` and `"."`). -/
def splitOnChar (sep : Char) : Str → List Str
  | [] => [[]]
  | a :: as =>
    if a == sep then [] :: splitOnChar sep as
    else
      match splitOnChar sep as with
      | [] => [[a]]
      | h :: t => (a :: h) :: t

/-- Python `s.strip()` (ASCII whitespace, which is all that occurs here). -/
def trimL (s : Str) : Str :=
  ((s.dropWhile Char.isWhitespace).reverse.dropWhile Char.isWhitespace).reverse

/-- Python `s.replace(pat, "")`, written with explicit fuel (the fuel is the
length of the remaining string, so it never runs out): remove all
(left-to-right, non-overlapping) occurrences of `pat`. -/
def removeOccsAux (pat : Str) : ℕ → Str → Str
  | 0, s => s
  | _ + 1, [] => []
  | fuel + 1, c :: rest =>
    if pat ≠ [] ∧ leadsWith pat (c :: rest) then
      removeOccsAux pat fuel ((c :: rest).drop pat.length)
    else
      c :: removeOccsAux pat fuel rest

/-- Python `s.replace(pat, "")`. -/
def removeOccs (pat s : Str) : Str := removeOccsAux pat s.length s

/-- Python `s.upper()` (ASCII). -/
def toUpperL (s : Str) : Str := s.map Char.toUpper

/-- Numeric value of a digit string (most significant first). -/
def natOfDigits (s : Str) : ℕ := s.foldl (fun a c => 10 * a + (c.toNat - 48)) 0

/-- Python `float(s)` on an unsigned decimal literal, split into
(scaled mantissa, number of fractional digits): `"67.5"` ↦ `(675, 1)`.
Surrounding whitespace is allowed, as in Python.  Any other shape
(signs, exponents, garbage) is `none`, modelling a raised `ValueError`;
no such string reaches `float()` in the claims below. -/
def parseDecimalParts (s : Str) : Option (ℕ × ℕ) :=
  match splitOnChar '.' (trimL s) with
  | [a] => if a ≠ [] ∧ a.all Char.isDigit then some (natOfDigits a, 0) else none
  | [a, b] =>
    if (a ≠ [] ∨ b ≠ []) ∧ a.all Char.isDigit ∧ b.all Char.isDigit then
      some (natOfDigits a * 10 ^ b.length + natOfDigits b, b.length)
    else none
  | _ => none

/-- Python `float(s)` as an exact rational. -/
def pyFloat (s : Str) : Option ℚ :=
  (parseDecimalParts s).map (fun p => mkRat p.1 (10 ^ p.2))

-- === USPA weight classes (kg portion only, matching CSV format before the "/") ===

def MENS_WEIGHT_CLASSES : List Str :=
  [str "52kg", str "56kg", str "60kg", str "67.5kg", str "75kg", str "82.5kg",
   str "90kg", str "100kg", str "110kg", str "125kg", str "140kg", str "140+kg"]

def WOMENS_WEIGHT_CLASSES : List Str :=
  [str "44kg", str "48kg", str "52kg", str "56kg", str "60kg", str "67.5kg",
   str "75kg", str "82.5kg", str "90kg", str "100kg", str "110kg", str "110+kg"]

-- === All recognised USPA divisions (uppercase, matching CSV/DB format) ===

def ALL_DIVISIONS_MEN : List Str :=
  [str "OPEN MEN",
   str "JUNIOR MEN 13 TO 15", str "JUNIOR MEN 16 TO 17", str "JUNIOR MEN 18 TO 19",
   str "JUNIOR MEN 20 TO 23",
   str "SUBMASTER MEN 35 TO 39",
   str "MASTER MEN 40 TO 44", str "MASTER MEN 45 TO 49", str "MASTER MEN 50 TO 54",
   str "MASTER MEN 55 TO 59",
   str "MASTER MEN 60 TO 64", str "MASTER MEN 65 TO 69", str "MASTER MEN 70 TO 74",
   str "MASTER MEN 75 TO 79",
   str "MASTER MEN 80 TO 84"]

def ALL_DIVISIONS_WOMEN : List Str :=
  [str "OPEN WOMEN",
   str "JUNIOR WOMEN 13 TO 15", str "JUNIOR WOMEN 16 TO 17", str "JUNIOR WOMEN 18 TO 19",
   str "JUNIOR WOMEN 20 TO 23",
   str "SUBMASTER WOMEN 35 TO 39",
   str "MASTER WOMEN 40 TO 44", str "MASTER WOMEN 45 TO 49", str "MASTER WOMEN 50 TO 54",
   str "MASTER WOMEN 55 TO 59",
   str "MASTER WOMEN 60 TO 64", str "MASTER WOMEN 65 TO 69", str "MASTER WOMEN 70 TO 74",
   str "MASTER WOMEN 75 TO 79",
   str "MASTER WOMEN 80 TO 84"]

def ALL_DIVISIONS : List Str := ALL_DIVISIONS_MEN ++ ALL_DIVISIONS_WOMEN

/-- `LIFT_ORDER = {"Squat": 0, "Bench": 1, "Deadlift": 2, "TOTAL": 3}`. -/
def LIFT_ORDER : List (Str × ℚ) :=
  [(str "Squat", 0), (str "Bench", 1), (str "Deadlift", 2), (str "TOTAL", 3)]

/-- `_extract_kg`: `str(weight_class).split("/")[0].strip()`. -/
def _extract_kg (weight_class : Str) : Str :=
  trimL ((splitOnChar '/' weight_class).headD [])

/-- `_wc_sort_key`: numeric sort key of a weight class.
`kg = _extract_kg(wc).replace("kg", "")`; if `kg` ends with `"+"` the key is
`float(kg[:-1]) + 0.1` (here fused into one exact rational
`(10*m + 10^e) / 10^(e+1)` where `float(kg[:-1]) = m / 10^e`), and a parse
failure in this branch is an uncaught `ValueError` (`none`); otherwise
`float(kg)`, with a parse failure caught and mapped to `9999.0`. -/
def _wc_sort_key (weight_class : Str) : Option ℚ :=
  let kg := removeOccs (str "kg") (_extract_kg weight_class)
  if kg.getLast? == some '+' then
    (parseDecimalParts kg.dropLast).map (fun p => mkRat (10 * p.1 + 10 ^ p.2) (10 ^ (p.2 + 1)))
  else
    some ((pyFloat kg).getD 9999)

/-- `combined["Lift"].map(LIFT_ORDER).fillna(99)`. -/
def _lift_sort_key (lift : Str) : ℚ := (LIFT_ORDER.lookup lift).getD 99

/-- `_expected_weight_classes`: women-marker first, then men-marker, else
`sorted(set(MENS + WOMENS))` (deduplicate, then ascending string sort). -/
def _expected_weight_classes (division : Str) : List Str :=
  let div := toUpperL division
  if containsL div (str "WOMEN") then WOMENS_WEIGHT_CLASSES
  else if containsL div (str "MEN") then MENS_WEIGHT_CLASSES
  else
    List.insertionSort (fun a b : Str => a ≤ b)
      ((MENS_WEIGHT_CLASSES ++ WOMENS_WEIGHT_CLASSES).eraseDups)

/-- `_expected_lifts`: lifts that make sense for the given event type. -/
def _expected_lifts (event : Str) : List Str :=
  let e := event.map Char.toLower
  if containsL e (str "bench-only") then [str "Bench"]
  else if containsL e (str "deadlift-only") then [str "Deadlift"]
  else [str "Squat", str "Bench", str "Deadlift", str "TOTAL"]

-- quick sanity examples (kernel-checked evaluation of the embedding)
example : _extract_kg (str "60kg/132.2lb") = str "60kg" := by decide
example : _extract_kg (str "140+kg/SHW") = str "140+kg" := by decide
example : _wc_sort_key (str "67.5kg/148.8lb") = some (mkRat 675 10) := by decide
example : _wc_sort_key (str "140+kg/SHW") = some (mkRat 1401 10) := by decide
example : _wc_sort_key (str "oddball") = some 9999 := by decide
example : _lift_sort_key (str "Bench") = 1 := by decide
example : _lift_sort_key (str "Press") = 99 := by decide
example : _expected_weight_classes (str "GUEST MEN") = MENS_WEIGHT_CLASSES := by decide
example : _expected_weight_classes (str "OPEN WOMEN") = WOMENS_WEIGHT_CLASSES := by decide
example : _expected_lifts (str "raw-bench-only") = [str "Bench"] := by decide
example : (_expected_lifts (str "raw-powerlifting")).length = 4 := by decide

-- === Data model ===

/-- One row of the in-memory dataframe inside the scraper, after
`_read_csv_robust` has produced string fields and the caller has attached
`Location`/`Event`/`Status`/`HasRecord` (columns in source order). -/
structure Row where
  division : Str
  weight_class : Str
  lift : Str
  name : Str
  kilos : Option ℚ
  pounds : Option ℚ
  date : Option Str
  location : Str
  event : Str
  status : Str
  hasRecord : Bool
deriving DecidableEq

/-- A row of the accumulated output dataset: domain fields are nullable
(the standalone `no_record_row` has them all null). -/
structure OutRow where
  division : Option Str
  weight_class : Option Str
  lift : Option Str
  name : Option Str
  kilos : Option ℚ
  pounds : Option ℚ
  date : Option Str
  location : Str
  event : Str
  status : Str
  hasRecord : Bool
deriving DecidableEq

/-- Embedding of a dataframe row into the nullable output schema. -/
def Row.toOut (r : Row) : OutRow :=
  { division := some r.division, weight_class := some r.weight_class,
    lift := some r.lift, name := some r.name, kilos := r.kilos,
    pounds := r.pounds, date := r.date, location := r.location,
    event := r.event, status := r.status, hasRecord := r.hasRecord }

-- === Vacancy completion engine (`fill_all_vacancies`) ===

/-- The set (modelled as a list, membership only) of
`(division.upper(), lift, _extract_kg(weight_class))` triples over the real
(`HasRecord == True`) rows. -/
def existingTriples (df : List Row) : List (Str × Str × Str) :=
  (df.filter (·.hasRecord)).map
    (fun r => (toUpperL r.division, r.lift, _extract_kg r.weight_class))

/-- The placeholder row appended by `_add_if_missing`. -/
def mkPlaceholder (division wc lift location event status : Str) : Row :=
  { division := division, weight_class := wc, lift := lift,
    name := str "No existing record", kilos := none, pounds := none,
    date := none, location := location, event := event, status := status,
    hasRecord := false }

/-- The placeholders generated for one division: the two inner loops
`for lift in lifts: for wc in _expected_weight_classes(division):
_add_if_missing(division, lift, wc)`. -/
def combosFor (ex : List (Str × Str × Str)) (division : Str) (lifts : List Str)
    (location event status : Str) : List Row :=
  lifts.flatMap (fun lift =>
    (_expected_weight_classes division).filterMap (fun wc =>
      if (toUpperL division, lift, wc) ∈ ex then none
      else some (mkPlaceholder division wc lift location event status)))

/-- Python `pd.unique` / `Series.unique()`: distinct values in order of first
appearance, written with explicit fuel (the fuel is the length of the
remaining list, so it never runs out). -/
def pandasUniqueAux : ℕ → List Str → List Str
  | 0, l => l
  | _ + 1, [] => []
  | fuel + 1, x :: xs => x :: pandasUniqueAux fuel (xs.filter (fun y => y ≠ x))

/-- Python `pd.unique` / `Series.unique()`. -/
def pandasUnique (l : List Str) : List Str := pandasUniqueAux l.length l

/-- `real["Division"].dropna().unique()` restricted to divisions whose
upper-casing is not in `ALL_DIVISIONS` (divisions are never null here, so
`dropna` is the identity). -/
def unknownDivisions (df : List Row) : List Str :=
  (pandasUnique ((df.filter (·.hasRecord)).map (·.division))).filter
    (fun d => toUpperL d ∉ ALL_DIVISIONS.map toUpperL)

/-- `placeholder_rows` as accumulated by the two loops of
`fill_all_vacancies`: all known USPA divisions first, then any unknown
divisions appearing among the real rows. -/
def placeholderRows (df : List Row) (location event status : Str) : List Row :=
  let lifts := _expected_lifts event
  let ex := existingTriples df
  ALL_DIVISIONS.flatMap (fun d => combosFor ex d lifts location event status)
    ++ (unknownDivisions df).flatMap (fun d => combosFor ex d lifts location event status)

/-- Sort key of a row: `(Division, _wc_sort, _lift_sort)` compared
lexicographically (pandas `sort_values` on the three key columns).  The
`getD 0` is never exercised on a run that does not raise (see `keysOk`). -/
def rowKey (r : Row) : Str ×ₗ (ℚ ×ₗ ℚ) :=
  toLex (r.division, toLex ((_wc_sort_key r.weight_class).getD 0, _lift_sort_key r.lift))

/-- Row comparison by sort key. -/
def rowLe (a b : Row) : Prop := rowKey a ≤ rowKey b

instance : DecidableRel rowLe := fun a b => inferInstanceAs (Decidable (rowKey a ≤ rowKey b))

instance : IsTotal Row rowLe := ⟨fun a b => le_total (rowKey a) (rowKey b)⟩

instance : IsTrans Row rowLe := ⟨fun _ _ _ => le_trans⟩

/-- `combined["Weight Class"].apply(_wc_sort_key)` succeeds on every row
(otherwise the `ValueError` raised inside `apply` propagates out of
`fill_all_vacancies`). -/
def keysOk (l : List Row) : Bool := l.all (fun r => (_wc_sort_key r.weight_class).isSome)

/-- The completed, canonically ordered dataset: real rows and placeholders
concatenated (`pd.concat([df, placeholder_rows])`), then stably sorted by
`(Division, _wc_sort, _lift_sort)` (multi-column `sort_values` is
`np.lexsort`, a stable sort; any stable sort yields the same list). -/
def completedRows (df : List Row) (location event status : Str) : List Row :=
  List.insertionSort rowLe (df ++ placeholderRows df location event status)

/-- `fill_all_vacancies(df, location, event, status)`: `none` models the
`ValueError` escaping when some weight class hits the uncaught
`float()` branch of `_wc_sort_key`. -/
def fill_all_vacancies (df : List Row) (location event status : Str) : Option (List Row) :=
  if keysOk (df ++ placeholderRows df location event status) then
    some (completedRows df location event status)
  else none

-- === Raw record parser (`_read_csv_robust`) ===

/-- The body of the row loop in `_read_csv_robust`: one raw CSV record
(a list of fields) is normalized to exactly 7 fields, reconstructing names
containing unquoted commas (`", ".join(raw[3:-3]).strip()`); rows with
fewer than 7 fields (and blank rows) are silently dropped. -/
def reconstructRow (raw : List Str) : Option (List Str) :=
  if raw.length = 0 then none
  else if raw.length = 7 then some raw
  else if 7 < raw.length then
    some [raw.getD 0 [], raw.getD 1 [], raw.getD 2 [],
          trimL (List.intercalate (str ", ") ((raw.drop 3).take (raw.length - 6))),
          raw.getD (raw.length - 3) [], raw.getD (raw.length - 2) [],
          raw.getD (raw.length - 1) []]
  else none

/-- A parsed payload row before query metadata is attached
(columns `Division, Weight Class, Lift, Name, Kilos, Pounds, Date`;
`Kilos`/`Pounds` already coerced by `pd.to_numeric(errors="coerce")`). -/
structure RawRecordRow where
  division : Str
  weight_class : Str
  lift : Str
  name : Str
  kilos : Option ℚ
  pounds : Option ℚ
  date : Str
deriving DecidableEq

/-- Positional mapping of a 7-field record onto the column schema, with
numeric coercion of `Kilos`/`Pounds`. -/
def rowOfFields (f : List Str) : RawRecordRow :=
  { division := f.getD 0 [], weight_class := f.getD 1 [], lift := f.getD 2 [],
    name := f.getD 3 [], kilos := pyFloat (f.getD 4 []),
    pounds := pyFloat (f.getD 5 []), date := f.getD 6 [] }

/-- `_read_csv_robust` applied to the data records of a payload (the list of
already-split lines after the header): `none` when no rows survive
(empty file or all rows malformed). -/
def _read_csv_robust (records : List (List Str)) : Option (List RawRecordRow) :=
  let rows := records.filterMap reconstructRow
  if rows.isEmpty then none else some (rows.map rowOfFields)

/-- Attaching the query metadata: `df["Location"] = ...; df["Event"] = ...;
df["Status"] = ...; df["HasRecord"] = True`. -/
def RawRecordRow.toRow (p : RawRecordRow) (location event status : Str) : Row :=
  { division := p.division, weight_class := p.weight_class, lift := p.lift,
    name := p.name, kilos := p.kilos, pounds := p.pounds, date := some p.date,
    location := location, event := event, status := status, hasRecord := true }

-- === Per-query fetch pipeline (`scrape_url` / `process_url`) ===

/-- What one fetch of a record page can yield, as seen by `scrape_url`:
  * `structuralError` — navigation/iframe failure or any exception inside the
    page-interaction block (the `except` of `scrape_url`, or an exception
    before its `try`);
  * `noRecordsSignal` — the Download-CSV button never appears
    (`TimeoutException`, "No records for this combination");
  * `downloadTimeout` — the CSV file never materializes;
  * `payload records` — a downloaded CSV with the given already-split data
    lines after the header (an empty or all-malformed payload is the
    "CSV was empty" case). -/
inductive FetchOutcome where
  | structuralError
  | noRecordsSignal
  | downloadTimeout
  | payload (records : List (List Str))
deriving DecidableEq

/-- The single all-null placeholder row returned when a query has no
records (`no_record_row()` in `scrape_url`). -/
def no_record_row (location event status : Str) : OutRow :=
  { division := none, weight_class := none, lift := none, name := none,
    kilos := none, pounds := none, date := none, location := location,
    event := event, status := status, hasRecord := false }

/-- `scrape_url`, with the browser interaction abstracted into a
`FetchOutcome`: returns the rows for this query, or `none` on a page-level
error (including a `ValueError` escaping `fill_all_vacancies`, which the
`except` block turns into a `None` return). -/
def scrape_url (o : FetchOutcome) (location status event : Str) : Option (List OutRow) :=
  match o with
  | .structuralError => none
  | .noRecordsSignal => some [no_record_row location event status]
  | .downloadTimeout => some [no_record_row location event status]
  | .payload records =>
    match _read_csv_robust records with
    | none => some [no_record_row location event status]
    | some parsed =>
      match fill_all_vacancies (parsed.map (·.toRow location event status))
          location event status with
      | none => none
      | some completed => some (completed.map Row.toOut)

/-- `process_url` for one query, given its fetch outcome: the pair of
(rows appended to the output dataset, whether the query was added to the
checkpoint file).  When `scrape_url` returns `None` nothing is appended,
but the checkpoint line is always written. -/
def process_url (o : FetchOutcome) (location status event : Str) : List OutRow × Bool :=
  match scrape_url o location status event with
  | none => ([], true)
  | some rows => (rows, true)

-- === Store loader (`uspaupload.py`) ===

/-- The weight-class normalization of the upload step:
`str(wc).split("/")[0].strip() if pd.notna(wc) else None`. -/
def uploadNormalizeWc (r : OutRow) : OutRow :=
  { r with weight_class := r.weight_class.map _extract_kg }

/-- The row count the spec's zero-rows property predicts: sum over all
divisions in the reference universe of the division's weight-class count,
times the number of lifts for the event. -/
def expectedTotalRows (event : Str) : ℕ :=
  (ALL_DIVISIONS.map (fun d => (_expected_weight_classes d).length)).sum
    * (_expected_lifts event).length

-- sanity examples
example : expectedTotalRows (str "raw-powerlifting") = 1440 := by decide
example : expectedTotalRows (str "raw-bench-only") = 360 := by decide
example :
    reconstructRow [str "D", str "82.5kg/181.9lb", str "Bench", str "Smith",
        str "John", str "Jr", str "150", str "330.7", str "2023-01-01"] =
      some [str "D", str "82.5kg/181.9lb", str "Bench", str "Smith, John, Jr",
        str "150", str "330.7", str "2023-01-01"] := by decide
example :
    scrape_url .noRecordsSignal (str "ohio") (str "drug-tested") (str "raw-powerlifting")
      = some [no_record_row (str "ohio") (str "raw-powerlifting") (str "drug-tested")] := rfl

/-- The "unisex" fallback list `sorted(set(MENS + WOMENS))`, written out:
15 distinct classes in ascending string order. -/
def UNISEX_WEIGHT_CLASSES : List Str :=
  [str "100kg", str "110+kg", str "110kg", str "125kg", str "140+kg", str "140kg",
   str "44kg", str "48kg", str "52kg", str "56kg", str "60kg", str "67.5kg",
   str "75kg", str "82.5kg", str "90kg"]

/-- The real row of the spec's end-to-end scenario (already carrying query
metadata). -/
def exRealRow : Row :=
  { division := str "OPEN MEN", weight_class := str "82.5kg/181.9lb",
    lift := str "Bench", name := str "J. Doe", kilos := some 150,
    pounds := some (mkRat 3307 10), date := some (str "2023-01-01"),
    location := str "ohio", event := str "raw-bench-only",
    status := str "drug-tested", hasRecord := true }

/-- A real row whose division is absent from `ALL_DIVISIONS`. -/
def guestRow : Row :=
  { division := str "GUEST MEN", weight_class := str "90kg/198.4lb",
    lift := str "Bench", name := str "A. Guest", kilos := some 100,
    pounds := some (mkRat 2204 10), date := some (str "2024-05-01"),
    location := str "texas", event := str "raw-bench-only",
    status := str "non-tested", hasRecord := true }

/-- Rows identical except for the weight class, for exercising the sort. -/
def wcRow (wc : String) : Row :=
  { division := str "OPEN MEN", weight_class := str wc, lift := str "Bench",
    name := str "A", kilos := none, pounds := none, date := none,
    location := str "ohio", event := str "raw-bench-only",
    status := str "drug-tested", hasRecord := true }

-- === Helper lemmas ===

theorem mem_pandasUniqueAux {a : Str} :
    ∀ (fuel : ℕ) (l : List Str), l.length ≤ fuel → (a ∈ pandasUniqueAux fuel l ↔ a ∈ l) := by
  intro fuel
  induction fuel with
  | zero => intro l _; exact Iff.rfl
  | succ n ih =>
    intro l hl
    cases l with
    | nil => exact Iff.rfl
    | cons x xs =>
      have hlen : (xs.filter (fun y => y ≠ x)).length ≤ n := by
        have := List.length_filter_le (fun y => decide (y ≠ x)) xs
        simp only [List.length_cons, Nat.succ_le_succ_iff] at hl
        omega
      simp only [pandasUniqueAux, List.mem_cons, ih _ hlen, List.mem_filter]
      by_cases hax : a = x
      · simp [hax]
      · simp [hax]

theorem mem_pandasUnique {a : Str} {l : List Str} : a ∈ pandasUnique l ↔ a ∈ l :=
  mem_pandasUniqueAux l.length l le_rfl

theorem rowLe_iff {a b : Row} : rowLe a b ↔ rowKey a ≤ rowKey b := Iff.rfl

theorem not_rowLe {a b : Row} (h : ¬ rowLe a b) : rowKey b < rowKey a :=
  lt_of_not_le (fun hba => h hba)

/-- Filtering on an exact sort key commutes with `orderedInsert`: the inserted
element lands in front of its key-equal block, and everything skipped over
has a strictly larger key and is unaffected. -/
theorem filter_orderedInsert (x : Row) (v : Str ×ₗ (ℚ ×ₗ ℚ)) :
    ∀ l : List Row,
      (List.orderedInsert rowLe x l).filter (fun r => decide (rowKey r = v)) =
        if rowKey x = v then x :: l.filter (fun r => decide (rowKey r = v))
        else l.filter (fun r => decide (rowKey r = v)) := by
  intro l
  induction l with
  | nil =>
    simp only [List.orderedInsert, List.filter_cons, List.filter_nil]
    by_cases hx : rowKey x = v <;> simp [hx]
  | cons y ys ih =>
    by_cases hxy : rowLe x y
    · rw [List.orderedInsert, if_pos hxy]
      by_cases hx : rowKey x = v <;> simp [List.filter_cons, hx]
    · rw [List.orderedInsert, if_neg hxy]
      have hlt : rowKey y < rowKey x := not_rowLe hxy
      rw [List.filter_cons, List.filter_cons]
      by_cases hy : rowKey y = v
      · have hx : ¬ rowKey x = v := fun hx => absurd (hx ▸ hy ▸ hlt) (lt_irrefl _)
        simp [hx, hy, ih]
      · by_cases hx : rowKey x = v <;> simp [hx, hy, ih]

/-- Stability of the canonical sort: rows with any fixed sort key appear in
the sorted output exactly as they appear in the input. -/
theorem filter_insertionSort (v : Str ×ₗ (ℚ ×ₗ ℚ)) :
    ∀ l : List Row,
      (List.insertionSort rowLe l).filter (fun r => decide (rowKey r = v)) =
        l.filter (fun r => decide (rowKey r = v)) := by
  intro l
  induction l with
  | nil => rfl
  | cons x xs ih =>
    rw [List.insertionSort, filter_orderedInsert, List.filter_cons]
    by_cases hx : rowKey x = v <;> simp [hx, ih]

theorem perm_completedRows (df : List Row) (location event status : Str) :
    List.Perm (completedRows df location event status)
      (df ++ placeholderRows df location event status) :=
  List.perm_insertionSort rowLe _

theorem sorted_completedRows (df : List Row) (location event status : Str) :
    List.Sorted rowLe (completedRows df location event status) :=
  List.sorted_insertionSort rowLe _

theorem filter_completedRows (df : List Row) (location event status : Str)
    (v : Str ×ₗ (ℚ ×ₗ ℚ)) :
    (completedRows df location event status).filter (fun r => decide (rowKey r = v)) =
      (df ++ placeholderRows df location event status).filter (fun r => decide (rowKey r = v)) :=
  filter_insertionSort v _

theorem mem_completedRows {df : List Row} {location event status : Str} {r : Row} :
    r ∈ completedRows df location event status ↔
      r ∈ df ++ placeholderRows df location event status :=
  (perm_completedRows df location event status).mem_iff

theorem fill_eq_some {df : List Row} {location event status : Str} {out : List Row}
    (h : fill_all_vacancies df location event status = some out) :
    out = completedRows df location event status := by
  unfold fill_all_vacancies at h
  by_cases hk : keysOk (df ++ placeholderRows df location event status) = true
  · rw [if_pos hk] at h; exact (Option.some.inj h).symm
  · rw [if_neg hk] at h; cases h

theorem fill_eq_some_of_keysOk {df : List Row} {location event status : Str}
    (hk : keysOk (df ++ placeholderRows df location event status) = true) :
    fill_all_vacancies df location event status
      = some (completedRows df location event status) := by
  unfold fill_all_vacancies
  rw [if_pos hk]

/-- Sorted lists with identical key-fibres are equal: the canonical ordering
(sortedness plus stability) determines the output list uniquely. -/
theorem sorted_filter_unique :
    ∀ l₁ l₂ : List Row, List.Sorted rowLe l₁ → List.Sorted rowLe l₂ →
    (∀ v, l₁.filter (fun r => decide (rowKey r = v)) =
          l₂.filter (fun r => decide (rowKey r = v))) →
    l₁ = l₂ := by
  intro l₁
  induction l₁ with
  | nil =>
    intro l₂ _ _ hf
    cases l₂ with
    | nil => rfl
    | cons y ys =>
      have := hf (rowKey y)
      simp only [List.filter_nil, List.filter_cons, decide_eq_true_eq] at this
      rw [if_pos trivial] at this
      cases this
  | cons x xs ih =>
    intro l₂ h₁ h₂ hf
    cases l₂ with
    | nil =>
      have := hf (rowKey x)
      simp only [List.filter_nil, List.filter_cons, decide_eq_true_eq] at this
      rw [if_pos trivial] at this
      cases this
    | cons y ys =>
      have hxy : rowKey x = rowKey y := by
        rcases lt_trichotomy (rowKey x) (rowKey y) with hlt | heq | hgt
        · exfalso
          have := hf (rowKey x)
          have hys : ys.filter (fun r => decide (rowKey r = rowKey x)) = [] := by
            rw [List.filter_eq_nil_iff]
            intro z hz
            have hyz : rowKey y ≤ rowKey z := List.rel_of_sorted_cons h₂ z hz
            simp only [decide_eq_true_eq]
            intro hzx
            exact absurd (hzx ▸ hyz) (not_le.mpr hlt)
          simp only [List.filter_cons, decide_eq_true_eq] at this
          rw [if_pos trivial, if_neg (fun h : rowKey y = rowKey x =>
            absurd (h ▸ hlt) (lt_irrefl _)), hys] at this
          cases this
        · exact heq
        · exfalso
          have := hf (rowKey y)
          have hxs : xs.filter (fun r => decide (rowKey r = rowKey y)) = [] := by
            rw [List.filter_eq_nil_iff]
            intro z hz
            have hxz : rowKey x ≤ rowKey z := List.rel_of_sorted_cons h₁ z hz
            simp only [decide_eq_true_eq]
            intro hzy
            exact absurd (hzy ▸ hxz) (not_le.mpr hgt)
          simp only [List.filter_cons, decide_eq_true_eq] at this
          rw [if_neg (fun h : rowKey x = rowKey y =>
            absurd (h ▸ hgt) (lt_irrefl _)), if_pos trivial, hxs] at this
          cases this
      have hcons := hf (rowKey x)
      simp only [List.filter_cons, decide_eq_true_eq] at hcons
      rw [if_pos trivial, if_pos hxy.symm] at hcons
      have hxy' : x = y := (List.cons.inj hcons).1
      have htail : xs = ys := by
        apply ih ys h₁.of_cons h₂.of_cons
        intro v
        by_cases hv : v = rowKey x
        · subst hv; exact (List.cons.inj hcons).2
        · have := hf v
          simp only [List.filter_cons, decide_eq_true_eq] at this
          rw [if_neg (fun h : rowKey x = v => hv h.symm),
              if_neg (fun h : rowKey y = v => hv (hxy ▸ h).symm)] at this
          exact this
      rw [hxy', htail]

theorem mem_existingTriples {df : List Row} {t : Str × Str × Str} :
    t ∈ existingTriples df ↔
      ∃ r ∈ df, r.hasRecord = true ∧
        t = (toUpperL r.division, r.lift, _extract_kg r.weight_class) := by
  simp only [existingTriples, List.mem_map, List.mem_filter]
  constructor
  · rintro ⟨r, ⟨hr, hrec⟩, rfl⟩
    exact ⟨r, hr, hrec, rfl⟩
  · rintro ⟨r, hr, hrec, rfl⟩
    exact ⟨r, ⟨hr, hrec⟩, rfl⟩

theorem mem_combosFor {ex : List (Str × Str × Str)} {d : Str} {lifts : List Str}
    {location event status : Str} {p : Row} :
    p ∈ combosFor ex d lifts location event status ↔
      ∃ lift ∈ lifts, ∃ wc ∈ _expected_weight_classes d,
        (toUpperL d, lift, wc) ∉ ex ∧ p = mkPlaceholder d wc lift location event status := by
  simp only [combosFor, List.mem_flatMap, List.mem_filterMap]
  constructor
  · rintro ⟨lift, hlift, wc, hwc, hsome⟩
    by_cases hmem : (toUpperL d, lift, wc) ∈ ex
    · rw [if_pos hmem] at hsome; cases hsome
    · rw [if_neg hmem] at hsome
      exact ⟨lift, hlift, wc, hwc, hmem, (Option.some.inj hsome).symm⟩
  · rintro ⟨lift, hlift, wc, hwc, hmem, rfl⟩
    exact ⟨lift, hlift, wc, hwc, by rw [if_neg hmem]⟩

theorem mem_unknownDivisions {df : List Row} {d : Str} :
    d ∈ unknownDivisions df ↔
      d ∈ (df.filter (·.hasRecord)).map (·.division) ∧
        toUpperL d ∉ ALL_DIVISIONS.map toUpperL := by
  simp only [unknownDivisions, List.mem_filter, mem_pandasUnique, decide_eq_true_eq]

theorem mem_placeholderRows {df : List Row} {location event status : Str} {p : Row} :
    p ∈ placeholderRows df location event status ↔
      ∃ d, (d ∈ ALL_DIVISIONS ∨ d ∈ unknownDivisions df) ∧
        ∃ lift ∈ _expected_lifts event, ∃ wc ∈ _expected_weight_classes d,
          (toUpperL d, lift, wc) ∉ existingTriples df ∧
          p = mkPlaceholder d wc lift location event status := by
  simp only [placeholderRows, List.mem_append, List.mem_flatMap, mem_combosFor]
  constructor
  · rintro (⟨d, hd, h⟩ | ⟨d, hd, h⟩)
    · exact ⟨d, Or.inl hd, h⟩
    · exact ⟨d, Or.inr hd, h⟩
  · rintro ⟨d, hd | hd, h⟩
    · exact Or.inl ⟨d, hd, h⟩
    · exact Or.inr ⟨d, hd, h⟩

theorem extract_kg_mens : ∀ wc ∈ MENS_WEIGHT_CLASSES, _extract_kg wc = wc := by decide

theorem extract_kg_womens : ∀ wc ∈ WOMENS_WEIGHT_CLASSES, _extract_kg wc = wc := by decide

theorem unisex_eval :
    List.insertionSort (fun a b : Str => a ≤ b)
        ((MENS_WEIGHT_CLASSES ++ WOMENS_WEIGHT_CLASSES).eraseDups)
      = UNISEX_WEIGHT_CLASSES := by decide

theorem extract_kg_unisex : ∀ wc ∈ UNISEX_WEIGHT_CLASSES, _extract_kg wc = wc := by decide

theorem extract_kg_expected {d wc : Str} (h : wc ∈ _expected_weight_classes d) :
    _extract_kg wc = wc := by
  unfold _expected_weight_classes at h
  by_cases hw : containsL (toUpperL d) (str "WOMEN") = true
  · rw [if_pos hw] at h; exact extract_kg_womens wc h
  · rw [if_neg hw] at h
    by_cases hm : containsL (toUpperL d) (str "MEN") = true
    · rw [if_pos hm] at h; exact extract_kg_mens wc h
    · rw [if_neg hm, unisex_eval] at h; exact extract_kg_unisex wc h

theorem splitOnChar_ne_nil (sep : Char) : ∀ s : Str, splitOnChar sep s ≠ [] := by
  intro s
  cases s with
  | nil => simp [splitOnChar]
  | cons a as =>
    rw [splitOnChar]
    by_cases ha : (a == sep) = true
    · rw [if_pos ha]; simp
    · rw [if_neg ha]
      cases hsp : splitOnChar sep as <;> simp

theorem not_mem_headD_splitOnChar (sep : Char) :
    ∀ s : Str, sep ∉ (splitOnChar sep s).headD [] := by
  intro s
  induction s with
  | nil => simp [splitOnChar]
  | cons a as ih =>
    rw [splitOnChar]
    by_cases ha : (a == sep) = true
    · rw [if_pos ha]; simp
    · rw [if_neg ha]
      have hne : a ≠ sep := by simpa using ha
      cases hsp : splitOnChar sep as with
      | nil => simpa using fun h => hne h.symm
      | cons h t =>
        rw [hsp] at ih
        simp only [List.headD_cons, List.mem_cons] at ih ⊢
        rintro (rfl | hmem)
        · exact hne rfl
        · exact ih hmem

theorem mem_trimL {c : Char} {s : Str} (h : c ∈ trimL s) : c ∈ s := by
  unfold trimL at h
  rw [List.mem_reverse] at h
  have h1 := List.dropWhile_sublist (l := (s.dropWhile Char.isWhitespace).reverse)
    (p := Char.isWhitespace)
  have h2 := h1.mem h
  rw [List.mem_reverse] at h2
  exact (List.dropWhile_sublist (l := s) (p := Char.isWhitespace)).mem h2

/-- The kg-only form produced by `_extract_kg` never contains the `/`
separator: the unit suffix is gone. -/
theorem slash_not_mem_extract_kg (wc : Str) : '/' ∉ _extract_kg wc := by
  intro h
  exact not_mem_headD_splitOnChar '/' wc (mem_trimL h)

-- === Claims ===

/-- C1 (counterexample): the claim predicts that a zero-real-rows query (here
the explicit no-records signal, with event `raw-powerlifting`) produces
`expectedTotalRows = 1440` completion rows; the code instead emits exactly one
standalone placeholder row and never runs the completion engine. -/
theorem C1_counterexample :
    (scrape_url .noRecordsSignal (str "ohio") (str "drug-tested")
        (str "raw-powerlifting")).map List.length = some 1
    ∧ expectedTotalRows (str "raw-powerlifting") = 1440
    ∧ (1 : ℕ) ≠ 1440 :=
  ⟨rfl, by decide, by decide⟩

/-- C1 (amended): for every query whose payload yields zero real rows (the
no-records signal, a download timeout, or an empty/all-malformed CSV), the
output for that query is exactly one placeholder row with all domain fields
null, metadata fields populated, and `has_record = false`; the completion
engine is not run. -/
theorem C1_zero_rows (o : FetchOutcome) (location status event : Str)
    (h : o = .noRecordsSignal ∨ o = .downloadTimeout ∨
      ∃ records, o = .payload records ∧ _read_csv_robust records = none) :
    scrape_url o location status event = some [no_record_row location event status]
    ∧ (no_record_row location event status).hasRecord = false
    ∧ (no_record_row location event status).division = none
    ∧ (no_record_row location event status).weight_class = none
    ∧ (no_record_row location event status).lift = none
    ∧ (no_record_row location event status).name = none
    ∧ (no_record_row location event status).location = location
    ∧ (no_record_row location event status).event = event
    ∧ (no_record_row location event status).status = status := by
  rcases h with rfl | rfl | ⟨records, rfl, hcsv⟩
  · exact ⟨rfl, rfl, rfl, rfl, rfl, rfl, rfl, rfl, rfl⟩
  · exact ⟨rfl, rfl, rfl, rfl, rfl, rfl, rfl, rfl, rfl⟩
  · refine ⟨?_, rfl, rfl, rfl, rfl, rfl, rfl, rfl, rfl⟩
    simp only [scrape_url, hcsv]

/-- C1 witness: the amended theorem applied to a concrete no-records query. -/
theorem C1_zero_rows_witness :
    (FetchOutcome.noRecordsSignal = FetchOutcome.noRecordsSignal ∨
      FetchOutcome.noRecordsSignal = FetchOutcome.downloadTimeout ∨
      ∃ records, FetchOutcome.noRecordsSignal = FetchOutcome.payload records ∧
        _read_csv_robust records = none)
    ∧ (scrape_url .noRecordsSignal (str "texas") (str "non-tested") (str "raw-powerlifting")
        = some [no_record_row (str "texas") (str "raw-powerlifting") (str "non-tested")]
      ∧ (no_record_row (str "texas") (str "raw-powerlifting") (str "non-tested")).hasRecord = false
      ∧ (no_record_row (str "texas") (str "raw-powerlifting") (str "non-tested")).division = none
      ∧ (no_record_row (str "texas") (str "raw-powerlifting") (str "non-tested")).weight_class = none
      ∧ (no_record_row (str "texas") (str "raw-powerlifting") (str "non-tested")).lift = none
      ∧ (no_record_row (str "texas") (str "raw-powerlifting") (str "non-tested")).name = none
      ∧ (no_record_row (str "texas") (str "raw-powerlifting") (str "non-tested")).location = str "texas"
      ∧ (no_record_row (str "texas") (str "raw-powerlifting") (str "non-tested")).event = str "raw-powerlifting"
      ∧ (no_record_row (str "texas") (str "raw-powerlifting") (str "non-tested")).status = str "non-tested") :=
  ⟨Or.inl rfl, C1_zero_rows _ _ _ _ (Or.inl rfl)⟩

/-- C3 (counterexample): on a structural fetch error the code appends zero
rows for the query — not the single failure placeholder row the claim
describes (`scrape_url` returns `None` and `process_url` skips the write). -/
theorem C3_counterexample :
    (process_url .structuralError (str "ohio") (str "drug-tested")
        (str "raw-powerlifting")).1.length = 0
    ∧ (0 : ℕ) ≠ 1 :=
  ⟨rfl, by decide⟩

/-- C3 (amended): on a structural fetch error, `scrape_url` yields no dataset
(`none`), so no row at all is appended for that query, and the query is still
added to the checkpoint set. -/
theorem C3_structural_error (location status event : Str) :
    scrape_url .structuralError location status event = none
    ∧ process_url .structuralError location status event = ([], true) :=
  ⟨rfl, rfl⟩

/-- C5 (counterexample): the parser strips surrounding whitespace from the
reconstructed name, so for an 8-field row whose 4th field has a leading
space the Name is not the bare `", ".join` of the middle fields. -/
theorem C5_counterexample :
    reconstructRow [str "a", str "b", str "c", str " D", str "E",
        str "k", str "p", str "d"]
      = some [str "a", str "b", str "c", str "D, E", str "k", str "p", str "d"]
    ∧ List.intercalate (str ", ") [str " D", str "E"] = str " D, E"
    ∧ reconstructRow [str "a", str "b", str "c", str " D", str "E",
        str "k", str "p", str "d"]
      ≠ some [str "a", str "b", str "c", str " D, E", str "k", str "p", str "d"] := by
  refine ⟨by decide, by decide, by decide⟩

/-- C5 (amended): for every raw payload line splitting into more than 7
fields, the parser produces one row whose first three entries are fields
0..2, whose Name is the `", "`-join of the fields from index 3 up to but
excluding the last 3 with surrounding whitespace stripped, and whose last
three entries are the last 3 fields; in particular the 9-field
`Smith / John / Jr` row reconstructs Name `"Smith, John, Jr"`. -/
theorem C5_reconstruct (raw : List Str) (h : 7 < raw.length) :
    reconstructRow raw
      = some [raw.getD 0 [], raw.getD 1 [], raw.getD 2 [],
          trimL (List.intercalate (str ", ") ((raw.drop 3).take (raw.length - 6))),
          raw.getD (raw.length - 3) [], raw.getD (raw.length - 2) [],
          raw.getD (raw.length - 1) []]
    ∧ reconstructRow [str "D", str "82.5kg/181.9lb", str "Bench", str "Smith",
        str "John", str "Jr", str "150", str "330.7", str "2023-01-01"]
      = some [str "D", str "82.5kg/181.9lb", str "Bench", str "Smith, John, Jr",
        str "150", str "330.7", str "2023-01-01"] := by
  constructor
  · unfold reconstructRow
    rw [if_neg (by omega), if_neg (by omega), if_pos h]
  · decide

/-- C5 witness: the amended theorem applied to a concrete 8-field row. -/
theorem C5_reconstruct_witness :
    7 < ([str "q", str "w", str "e", str "r", str "t", str "y", str "u", str "i"] :
        List (List Char)).length
    ∧ (reconstructRow [str "q", str "w", str "e", str "r", str "t", str "y", str "u", str "i"]
        = some [([str "q", str "w", str "e", str "r", str "t", str "y", str "u", str "i"] :
              List (List Char)).getD 0 [],
            [str "q", str "w", str "e", str "r", str "t", str "y", str "u", str "i"].getD 1 [],
            [str "q", str "w", str "e", str "r", str "t", str "y", str "u", str "i"].getD 2 [],
            trimL (List.intercalate (str ", ")
              (([str "q", str "w", str "e", str "r", str "t", str "y", str "u", str "i"].drop 3).take
                ([str "q", str "w", str "e", str "r", str "t", str "y", str "u", str "i"].length - 6))),
            [str "q", str "w", str "e", str "r", str "t", str "y", str "u", str "i"].getD
              ([str "q", str "w", str "e", str "r", str "t", str "y", str "u", str "i"].length - 3) [],
            [str "q", str "w", str "e", str "r", str "t", str "y", str "u", str "i"].getD
              ([str "q", str "w", str "e", str "r", str "t", str "y", str "u", str "i"].length - 2) [],
            [str "q", str "w", str "e", str "r", str "t", str "y", str "u", str "i"].getD
              ([str "q", str "w", str "e", str "r", str "t", str "y", str "u", str "i"].length - 1) []]
      ∧ reconstructRow [str "D", str "82.5kg/181.9lb", str "Bench", str "Smith",
          str "John", str "Jr", str "150", str "330.7", str "2023-01-01"]
        = some [str "D", str "82.5kg/181.9lb", str "Bench", str "Smith, John, Jr",
          str "150", str "330.7", str "2023-01-01"]) :=
  ⟨by decide, C5_reconstruct _ (by decide)⟩

/-- C10: a division name containing neither gender marker gets the
deduplicated union of both weight-class lists in ascending string order:
15 distinct classes, strictly string-sorted (so `"100kg"` is first and
`"44kg"` only 7th), containing exactly the union of the two lists. -/
theorem C10_unisex (d : Str)
    (hw : containsL (toUpperL d) (str "WOMEN") = false)
    (hm : containsL (toUpperL d) (str "MEN") = false) :
    _expected_weight_classes d = UNISEX_WEIGHT_CLASSES
    ∧ UNISEX_WEIGHT_CLASSES.length = 15
    ∧ UNISEX_WEIGHT_CLASSES.Nodup
    ∧ List.Pairwise (fun a b : Str => a < b) UNISEX_WEIGHT_CLASSES
    ∧ (∀ wc ∈ UNISEX_WEIGHT_CLASSES,
        wc ∈ MENS_WEIGHT_CLASSES ∨ wc ∈ WOMENS_WEIGHT_CLASSES)
    ∧ (∀ wc ∈ MENS_WEIGHT_CLASSES ++ WOMENS_WEIGHT_CLASSES,
        wc ∈ UNISEX_WEIGHT_CLASSES)
    ∧ UNISEX_WEIGHT_CLASSES.getD 0 [] = str "100kg"
    ∧ UNISEX_WEIGHT_CLASSES.getD 6 [] = str "44kg" := by
  refine ⟨?_, by decide, by decide, by decide, by decide, by decide, by decide, by decide⟩
  unfold _expected_weight_classes
  rw [if_neg (by simp [hw]), if_neg (by simp [hm]), unisex_eval]

/-- C10 witness: the theorem applied to the concrete marker-free division
name `"GUEST"`. -/
theorem C10_unisex_witness :
    containsL (toUpperL (str "GUEST")) (str "WOMEN") = false
    ∧ containsL (toUpperL (str "GUEST")) (str "MEN") = false
    ∧ _expected_weight_classes (str "GUEST") = UNISEX_WEIGHT_CLASSES :=
  ⟨by decide, by decide, (C10_unisex _ (by decide) (by decide)).1⟩

/-- C2 (counterexample): the completion engine leaves a real row's compound
weight class untouched — the end-to-end scenario row keeps
`"82.5kg/181.9lb"` in the completion output, so not every output row is in
normalized kg-only form. -/
theorem C2_counterexample :
    ∃ out, fill_all_vacancies [exRealRow] (str "ohio") (str "raw-bench-only")
        (str "drug-tested") = some out
      ∧ ∃ r ∈ out, r.weight_class = str "82.5kg/181.9lb"
        ∧ _extract_kg r.weight_class ≠ r.weight_class := by
  refine ⟨completedRows [exRealRow] (str "ohio") (str "raw-bench-only") (str "drug-tested"),
    fill_eq_some_of_keysOk (by decide), exRealRow, ?_, rfl, by decide⟩
  exact mem_completedRows.mpr (List.mem_append_left _ (List.mem_singleton.mpr rfl))

/-- C2 (amended): the completion engine emits placeholder rows whose
weight_class is already in kg-only form; real rows keep their original
compound weight_class inside the completion output, and the kg-only
normalization (`split("/")[0].strip()`) is applied to every non-null
weight_class by the upload step, after which no `/` separator remains. -/
theorem C2_normalization (df : List Row) (location event status : Str) :
    (∀ p ∈ placeholderRows df location event status,
        _extract_kg p.weight_class = p.weight_class)
    ∧ (∀ (r : OutRow) (wc : Str), r.weight_class = some wc →
        (uploadNormalizeWc r).weight_class = some (_extract_kg wc)
        ∧ '/' ∉ _extract_kg wc)
    ∧ (∀ r : OutRow, r.weight_class = none → (uploadNormalizeWc r).weight_class = none)
    ∧ _extract_kg (str "82.5kg/181.9lb") = str "82.5kg" := by
  refine ⟨?_, ?_, ?_, by decide⟩
  · intro p hp
    rcases mem_placeholderRows.mp hp with ⟨d, -, lift, -, wc, hwc, -, rfl⟩
    exact extract_kg_expected hwc
  · intro r wc h
    exact ⟨by simp [uploadNormalizeWc, h], slash_not_mem_extract_kg wc⟩
  · intro r h
    simp [uploadNormalizeWc, h]

/-- C2 witness: the amended theorem applied to a concrete placeholder and to
the end-to-end scenario row at the upload step. -/
theorem C2_normalization_witness :
    (mkPlaceholder (str "OPEN MEN") (str "52kg") (str "Bench") (str "ohio")
        (str "raw-bench-only") (str "drug-tested")
      ∈ placeholderRows [] (str "ohio") (str "raw-bench-only") (str "drug-tested"))
    ∧ (exRealRow.toOut.weight_class = some (str "82.5kg/181.9lb"))
    ∧ _extract_kg (mkPlaceholder (str "OPEN MEN") (str "52kg") (str "Bench") (str "ohio")
        (str "raw-bench-only") (str "drug-tested")).weight_class
      = (mkPlaceholder (str "OPEN MEN") (str "52kg") (str "Bench") (str "ohio")
        (str "raw-bench-only") (str "drug-tested")).weight_class
    ∧ (uploadNormalizeWc exRealRow.toOut).weight_class = some (_extract_kg (str "82.5kg/181.9lb"))
    ∧ '/' ∉ _extract_kg (str "82.5kg/181.9lb") := by
  have h := C2_normalization [] (str "ohio") (str "raw-bench-only") (str "drug-tested")
  have h2 := h.2.1 exRealRow.toOut (str "82.5kg/181.9lb") (by decide)
  exact ⟨by decide, by decide, h.1 _ (by decide), h2.1, h2.2⟩

/-- C4: with at least one real input row, completion preserves every input
row verbatim (as a list element of the output), the output is a permutation
of the input rows plus the generated placeholders, and every placeholder has
`has_record = false` and a key outside the present set of the real rows. -/
theorem C4_preservation (df : List Row) (location event status : Str) (out : List Row)
    (hout : fill_all_vacancies df location event status = some out)
    (_hreal : ∃ r ∈ df, r.hasRecord = true) :
    (∀ r ∈ df, r ∈ out)
    ∧ List.Perm out (df ++ placeholderRows df location event status)
    ∧ (∀ p ∈ placeholderRows df location event status,
        p.hasRecord = false
        ∧ (toUpperL p.division, p.lift, _extract_kg p.weight_class)
            ∉ existingTriples df) := by
  obtain rfl := fill_eq_some hout
  refine ⟨?_, perm_completedRows df location event status, ?_⟩
  · intro r hr
    exact mem_completedRows.mpr (List.mem_append_left _ hr)
  · intro p hp
    rcases mem_placeholderRows.mp hp with ⟨d, -, lift, -, wc, hwc, hne, rfl⟩
    refine ⟨rfl, ?_⟩
    have hkg : _extract_kg wc = wc := extract_kg_expected hwc
    simpa [mkPlaceholder, hkg] using hne

/-- C4 witness: the theorem applied to the end-to-end scenario input. -/
theorem C4_preservation_witness :
    (fill_all_vacancies [exRealRow] (str "ohio") (str "raw-bench-only") (str "drug-tested")
      = some (completedRows [exRealRow] (str "ohio") (str "raw-bench-only") (str "drug-tested")))
    ∧ (∃ r ∈ [exRealRow], r.hasRecord = true)
    ∧ ((∀ r ∈ [exRealRow],
          r ∈ completedRows [exRealRow] (str "ohio") (str "raw-bench-only") (str "drug-tested"))
      ∧ List.Perm
          (completedRows [exRealRow] (str "ohio") (str "raw-bench-only") (str "drug-tested"))
          ([exRealRow] ++ placeholderRows [exRealRow] (str "ohio") (str "raw-bench-only")
            (str "drug-tested"))
      ∧ (∀ p ∈ placeholderRows [exRealRow] (str "ohio") (str "raw-bench-only")
            (str "drug-tested"),
          p.hasRecord = false
          ∧ (toUpperL p.division, p.lift, _extract_kg p.weight_class)
              ∉ existingTriples [exRealRow])) := by
  have hk : fill_all_vacancies [exRealRow] (str "ohio") (str "raw-bench-only")
      (str "drug-tested")
      = some (completedRows [exRealRow] (str "ohio") (str "raw-bench-only") (str "drug-tested")) :=
    fill_eq_some_of_keysOk (by decide)
  have hreal : ∃ r ∈ [exRealRow], r.hasRecord = true :=
    ⟨exRealRow, List.mem_singleton.mpr rfl, rfl⟩
  exact ⟨hk, hreal, C4_preservation _ _ _ _ _ hk hreal⟩

/-- C6: the completion output is sorted by the lexicographic key
(Division string, numeric weight-class key, lift precedence); on the
spec's example weight classes the sort yields
`["52kg","56kg","140kg","140+kg"]`; the `"+"` class key exceeds its base
(`140 < 140.1`); the lift precedences are Squat 0, Bench 1, Deadlift 2,
TOTAL 3, and every unrecognized lift gets key 99, sorting after all four. -/
theorem C6_ordering (df : List Row) (location event status : Str) (out : List Row)
    (hout : fill_all_vacancies df location event status = some out) :
    List.Sorted rowLe out
    ∧ List.insertionSort rowLe [wcRow "52kg", wcRow "140kg", wcRow "140+kg", wcRow "56kg"]
        = [wcRow "52kg", wcRow "56kg", wcRow "140kg", wcRow "140+kg"]
    ∧ (_wc_sort_key (str "140kg")).getD 0 < (_wc_sort_key (str "140+kg")).getD 0
    ∧ _lift_sort_key (str "Squat") = 0 ∧ _lift_sort_key (str "Bench") = 1
    ∧ _lift_sort_key (str "Deadlift") = 2 ∧ _lift_sort_key (str "TOTAL") = 3
    ∧ (3 : ℚ) < 99
    ∧ (∀ lift : Str,
        lift ∉ [str "Squat", str "Bench", str "Deadlift", str "TOTAL"] →
        _lift_sort_key lift = 99) := by
  obtain rfl := fill_eq_some hout
  refine ⟨sorted_completedRows df location event status, by decide, by decide, by decide,
    by decide, by decide, by decide, by decide, ?_⟩
  intro lift hmem
  simp only [List.mem_cons, List.not_mem_nil, or_false, not_or] at hmem
  obtain ⟨h1, h2, h3, h4⟩ := hmem
  have e1 : (lift == str "Squat") = false := beq_eq_false_iff_ne.mpr h1
  have e2 : (lift == str "Bench") = false := beq_eq_false_iff_ne.mpr h2
  have e3 : (lift == str "Deadlift") = false := beq_eq_false_iff_ne.mpr h3
  have e4 : (lift == str "TOTAL") = false := beq_eq_false_iff_ne.mpr h4
  simp [_lift_sort_key, LIFT_ORDER, List.lookup, e1, e2, e3, e4]

/-- C6 witness: the theorem applied to the end-to-end scenario input and the
unrecognized lift name `"Press"`. -/
theorem C6_ordering_witness :
    (fill_all_vacancies [exRealRow] (str "ohio") (str "raw-bench-only") (str "drug-tested")
      = some (completedRows [exRealRow] (str "ohio") (str "raw-bench-only") (str "drug-tested")))
    ∧ List.Sorted rowLe
        (completedRows [exRealRow] (str "ohio") (str "raw-bench-only") (str "drug-tested"))
    ∧ (str "Press" ∉ [str "Squat", str "Bench", str "Deadlift", str "TOTAL"])
    ∧ _lift_sort_key (str "Press") = 99 := by
  have hk : fill_all_vacancies [exRealRow] (str "ohio") (str "raw-bench-only")
      (str "drug-tested")
      = some (completedRows [exRealRow] (str "ohio") (str "raw-bench-only") (str "drug-tested")) :=
    fill_eq_some_of_keysOk (by decide)
  have h := C6_ordering _ _ _ _ _ hk
  exact ⟨hk, h.1, by decide, h.2.2.2.2.2.2.2.2 _ (by decide)⟩

/-- C7: the canonical ordering is stable — for every sort-key value, the rows
of the sorted completion output carrying that key are exactly, and in the
same order as, the rows carrying that key in the sort's input (the real rows
followed by the generated placeholders); rows with equal keys therefore keep
their original relative order. -/
theorem C7_stability (df : List Row) (location event status : Str)
    (v : Str ×ₗ (ℚ ×ₗ ℚ)) :
    (completedRows df location event status).filter (fun r => decide (rowKey r = v))
      = (df ++ placeholderRows df location event status).filter
          (fun r => decide (rowKey r = v)) :=
  filter_completedRows df location event status v

/-- C8: completion is deterministic including row order — any two outputs
satisfying the canonical ordering contract over the same input (sorted by the
key, with the input's key-fibres preserved) are identical, and any successful
run of `fill_all_vacancies` on that input produces exactly that list. -/
theorem C8_deterministic (df : List Row) (location event status : Str)
    (out₁ out₂ : List Row)
    (h₁ : List.Sorted rowLe out₁) (h₂ : List.Sorted rowLe out₂)
    (hf₁ : ∀ v, out₁.filter (fun r => decide (rowKey r = v))
      = (df ++ placeholderRows df location event status).filter
          (fun r => decide (rowKey r = v)))
    (hf₂ : ∀ v, out₂.filter (fun r => decide (rowKey r = v))
      = (df ++ placeholderRows df location event status).filter
          (fun r => decide (rowKey r = v))) :
    out₁ = out₂
    ∧ (∀ out, fill_all_vacancies df location event status = some out → out = out₁) := by
  have h1c : out₁ = completedRows df location event status :=
    sorted_filter_unique _ _ h₁ (sorted_completedRows df location event status)
      (fun v => (hf₁ v).trans (filter_completedRows df location event status v).symm)
  have h2c : out₂ = completedRows df location event status :=
    sorted_filter_unique _ _ h₂ (sorted_completedRows df location event status)
      (fun v => (hf₂ v).trans (filter_completedRows df location event status v).symm)
  exact ⟨h1c.trans h2c.symm, fun out hout => (fill_eq_some hout).trans h1c.symm⟩

/-- C8 witness: the theorem applied to two runs over the end-to-end scenario
input. -/
theorem C8_deterministic_witness :
    List.Sorted rowLe
      (completedRows [exRealRow] (str "ohio") (str "raw-bench-only") (str "drug-tested"))
    ∧ completedRows [exRealRow] (str "ohio") (str "raw-bench-only") (str "drug-tested")
      = completedRows [exRealRow] (str "ohio") (str "raw-bench-only") (str "drug-tested") := by
  have h := C8_deterministic [exRealRow] (str "ohio") (str "raw-bench-only") (str "drug-tested")
    (completedRows [exRealRow] (str "ohio") (str "raw-bench-only") (str "drug-tested"))
    (completedRows [exRealRow] (str "ohio") (str "raw-bench-only") (str "drug-tested"))
    (sorted_completedRows _ _ _ _) (sorted_completedRows _ _ _ _)
    (fun v => filter_completedRows _ _ _ _ v) (fun v => filter_completedRows _ _ _ _ v)
  exact ⟨sorted_completedRows _ _ _ _, h.1⟩

/-- C9: a real row whose division is not (case-insensitively) in the
reference list still gets full coverage: for every lift of the event and
every weight class of the gender-inferred list, the completion output
contains a row for that (division, lift, class) key, and it is a
`has_record = false` placeholder whenever the combination is not already
present among the real rows; the list used for `"GUEST MEN"` is the men's
12-class list. -/
theorem C9_unknown_division (df : List Row) (location event status : Str)
    (out : List Row) (r : Row)
    (hout : fill_all_vacancies df location event status = some out)
    (hr : r ∈ df) (hreal : r.hasRecord = true)
    (hunk : toUpperL r.division ∉ ALL_DIVISIONS.map toUpperL) :
    (∀ lift ∈ _expected_lifts event, ∀ wc ∈ _expected_weight_classes r.division,
      ∃ s ∈ out, toUpperL s.division = toUpperL r.division ∧ s.lift = lift
        ∧ _extract_kg s.weight_class = wc
        ∧ ((toUpperL r.division, lift, wc) ∉ existingTriples df →
            s.hasRecord = false))
    ∧ _expected_weight_classes (str "GUEST MEN") = MENS_WEIGHT_CLASSES := by
  obtain rfl := fill_eq_some hout
  refine ⟨?_, by decide⟩
  intro lift hlift wc hwc
  by_cases hex : (toUpperL r.division, lift, wc) ∈ existingTriples df
  · rcases mem_existingTriples.mp hex with ⟨s, hs, -, heq⟩
    obtain ⟨h1, h2, h3⟩ : toUpperL r.division = toUpperL s.division ∧ lift = s.lift
        ∧ wc = _extract_kg s.weight_class := by
      simpa [Prod.ext_iff] using heq
    exact ⟨s, mem_completedRows.mpr (List.mem_append_left _ hs), h1.symm, h2.symm,
      h3.symm, fun hni => absurd hex hni⟩
  · have hd : r.division ∈ unknownDivisions df :=
      mem_unknownDivisions.mpr
        ⟨List.mem_map.mpr ⟨r, List.mem_filter.mpr ⟨hr, by simp [hreal]⟩, rfl⟩, hunk⟩
    have hp : mkPlaceholder r.division wc lift location event status
        ∈ placeholderRows df location event status :=
      mem_placeholderRows.mpr ⟨r.division, Or.inr hd, lift, hlift, wc, hwc, hex, rfl⟩
    exact ⟨mkPlaceholder r.division wc lift location event status,
      mem_completedRows.mpr (List.mem_append_right _ hp), rfl, rfl,
      extract_kg_expected hwc, fun _ => rfl⟩

/-- C9 witness: the theorem applied to a concrete `"GUEST MEN"` row. -/
theorem C9_unknown_division_witness :
    (fill_all_vacancies [guestRow] (str "texas") (str "raw-bench-only") (str "non-tested")
      = some (completedRows [guestRow] (str "texas") (str "raw-bench-only") (str "non-tested")))
    ∧ guestRow ∈ [guestRow]
    ∧ guestRow.hasRecord = true
    ∧ toUpperL guestRow.division ∉ ALL_DIVISIONS.map toUpperL
    ∧ ((∀ lift ∈ _expected_lifts (str "raw-bench-only"),
        ∀ wc ∈ _expected_weight_classes guestRow.division,
        ∃ s ∈ completedRows [guestRow] (str "texas") (str "raw-bench-only") (str "non-tested"),
          toUpperL s.division = toUpperL guestRow.division ∧ s.lift = lift
          ∧ _extract_kg s.weight_class = wc
          ∧ ((toUpperL guestRow.division, lift, wc) ∉ existingTriples [guestRow] →
              s.hasRecord = false))
      ∧ _expected_weight_classes (str "GUEST MEN") = MENS_WEIGHT_CLASSES) := by
  have hk : fill_all_vacancies [guestRow] (str "texas") (str "raw-bench-only")
      (str "non-tested")
      = some (completedRows [guestRow] (str "texas") (str "raw-bench-only") (str "non-tested")) :=
    fill_eq_some_of_keysOk (by decide)
  exact ⟨hk, List.mem_singleton.mpr rfl, rfl, by decide,
    C9_unknown_division _ _ _ _ _ _ hk (List.mem_singleton.mpr rfl) rfl (by decide)⟩
